import Mathlib

/-
  Verification development for datastax/pulsar-heartbeat.

  Shallow embedding of the incident tracker and escalation engine
  (src/cfg/incident.go), the payload generator and message-id parser
  (payload helpers, cfg package), the receive-timeout computation
  (src/cfg/pulsar-latency.go, src/util/util.go), the standard-deviation
  outlier bucket (src/stats/standard-dev.go), and the partitioned-topic
  creation call (src/topic/partition-topics.go).

  Conventions:
  - Go `time.Time` / `time.Duration` are modelled as `Int` nanoseconds.
    Go calls `time.Now()` several times inside one function body; those
    reads are identified and passed in as a single `now` parameter.
  - Go `int` is modelled as `Int` (no claim in scope depends on 64-bit
    wraparound: every tracked counter stays within the configured
    ceiling, which is itself an in-range int).
  - Go maps keyed by strings are modelled as association lists; the
    monitor inserts a key at most once per component, so first-match
    lookup agrees with map semantics.
-/

namespace PulsarHeartbeat

/-- Go `time.Second` as nanoseconds (`time.Duration` is int64 ns). -/
def second : Int := 1000000000

/-- Go `time.Minute` as nanoseconds. -/
def minute : Int := 60 * second

/-- util.TimeDuration (src/util/util.go:195): the configured value with a
default used only when the configured value is zero. -/
def timeDuration (configV defaultV : Int) (timeUnit : Int) : Int :=
  if configV = 0 then defaultV * timeUnit else configV * timeUnit

/-- AlertPolicyCfg (src/config.go:133). -/
structure AlertPolicyCfg where
  ceiling : Int
  movingWindowSeconds : Int
  ceilingInMovingWindow : Int
deriving Repr, DecidableEq

/-- IncidentAlertPolicy (src/cfg/incident.go:112), the per-component tracker
state.  `alerts` is the key set of the Go map `Alerts map[time.Time]bool`
(all stored values are `true`, so only the keys matter); successive
`time.Now()` keys are distinct, so a list of timestamps models it. -/
structure IncidentAlertPolicy where
  entity : String
  counters : Int
  evalWindowSeconds : Int
  alerts : List Int
  limitInWindow : Int
  limit : Int
  lastUpdatedAt : Int
deriving Repr, DecidableEq

/-- IncidentAlertPolicy.report (src/cfg/incident.go:123).  Returns the
updated tracker and whether an alert is triggered.  The Go method mutates
the receiver; here the updated struct is returned.  The `VerboseAlert`
pre-alert (line 136) only touches unrelated notification state and is
omitted.  The eviction loop keeps an entry iff `time.Now().Sub(v) <
t.EvalWindowSeconds` and deletes it otherwise, while counting the kept
ones. -/
def report (now : Int) (component : String) (t : IncidentAlertPolicy) :
    IncidentAlertPolicy × Bool :=
  let t1 : IncidentAlertPolicy :=
    { t with lastUpdatedAt := now, entity := component,
             counters := t.counters + 1, alerts := now :: t.alerts }
  if t1.limit > 0 ∧ t1.counters ≥ t1.limit then
    ({ t1 with counters := 0, alerts := [] }, true)
  else
    let kept := t1.alerts.filter (fun v => now - v < t1.evalWindowSeconds)
    let windowCounts : Int := kept.length
    let t2 := { t1 with alerts := kept }
    if t2.limitInWindow > 0 ∧ windowCounts ≥ t2.limitInWindow then
      ({ t2 with counters := 0, alerts := [] }, true)
    else
      (t2, false)

/-- IncidentAlertPolicy.clear (src/cfg/incident.go:157): decrement the
counter and return its new value (returned alongside the updated struct). -/
def IncidentAlertPolicy.clear (t : IncidentAlertPolicy) :
    IncidentAlertPolicy × Int :=
  ({ t with counters := t.counters - 1 }, t.counters - 1)

/-- newPolicy (src/cfg/incident.go:162).  Fields not assigned in Go keep
their zero value (`Counters = 0`, `Entity = ""`). -/
def newPolicy (eval : AlertPolicyCfg) (now : Int) : IncidentAlertPolicy :=
  { entity := ""
    counters := 0
    evalWindowSeconds := timeDuration eval.movingWindowSeconds 1 second
    alerts := []
    limitInWindow := eval.ceilingInMovingWindow
    limit := eval.ceiling
    lastUpdatedAt := now }

/-- The process-wide `incidentTrackers` map, keyed by component name. -/
abbrev TrackerMap := List (String × IncidentAlertPolicy)

/-- Assignment `incidentTrackers[k] = v` for a key already present. -/
def updateTracker (m : TrackerMap) (k : String) (v : IncidentAlertPolicy) :
    TrackerMap :=
  m.map (fun p => if p.1 = k then (k, v) else p)

/-- Deletion `delete(incidentTrackers, k)`. -/
def eraseTracker (m : TrackerMap) (k : String) : TrackerMap :=
  m.filter (fun p => p.1 ≠ k)

/-- trackIncident (src/cfg/incident.go:172): report on the existing tracker,
or create one via `newPolicy`, report on it and store it. -/
def trackIncident (now : Int) (component : String) (eval : AlertPolicyCfg)
    (m : TrackerMap) : TrackerMap × Bool :=
  match m.lookup component with
  | some tracker =>
      let r := report now component tracker
      (updateTracker m component r.1, r.2)
  | none =>
      let t := newPolicy eval now
      let r := report now component t
      (m ++ [(component, r.1)], r.2)

/-- The cross-component correlation count of ReportIncident
(src/cfg/incident.go:191-202): number of trackers updated within the last
minute, counted only in in-cluster mode with more than two trackers. -/
def correlationCount (k8sEnabled : Bool) (now : Int) (m : TrackerMap) : Int :=
  if k8sEnabled ∧ m.length > 2 then
    ((m.filter (fun p => now - p.2.lastUpdatedAt < minute)).length : Int)
  else 0

/-- ReportIncident (src/cfg/incident.go:185).  The returned Bool is the Go
return value, which is `true` exactly on the paths that call
`CreateIncident`.  `GetConfig().K8sConfig.Enabled` is the `k8sEnabled`
parameter.  Go short-circuit: `trackIncident` runs only when
`eval.Ceiling > 0`. -/
def ReportIncident (k8sEnabled : Bool) (now : Int) (component : String)
    (eval : AlertPolicyCfg) (m : TrackerMap) : TrackerMap × Bool :=
  if eval.ceiling > 0 then
    let r := trackIncident now component eval m
    if r.2 then (r.1, true)
    else if correlationCount k8sEnabled now r.1 > 2 then (r.1, true)
    else (r.1, false)
  else if correlationCount k8sEnabled now m > 2 then (m, true)
  else (m, false)

/-- The tracker-map effect of ClearIncident (src/cfg/incident.go:212).
(`RemoveIncident` only touches the separate `incidents` registry, modelled
in the incident-record section below.)  The entry is deleted exactly when
the decremented counter equals zero. -/
def ClearIncident (component : String) (m : TrackerMap) : TrackerMap :=
  match m.lookup component with
  | some tracker =>
      let c := tracker.clear
      if c.2 = 0 then eraseTracker m component
      else updateTracker m component c.1
  | none => m

/-- A sequence of consecutive `trackIncident` calls for one component at the
given times, starting from tracker map `m`; returns the final map and the
list of per-call results. -/
def runTrack (eval : AlertPolicyCfg) (component : String) :
    List Int → TrackerMap → TrackerMap × List Bool
  | [], m => (m, [])
  | t :: ts, m =>
      let r := trackIncident t component eval m
      let rest := runTrack eval component ts r.1
      (rest.1, r.2 :: rest.2)

/-- A sequence of consecutive `report` calls on a single tracker. -/
def reportRun (component : String) :
    List Int → IncidentAlertPolicy → IncidentAlertPolicy × List Bool
  | [], t => (t, [])
  | now :: ts, t =>
      let r := report now component t
      let rest := reportRun component ts r.1
      (rest.1, r.2 :: rest.2)

/-! ### Helper lemmas on the tracker registry -/

theorem emod_add_cancel (x C : Int) : (C + x) % C = x % C := by
  conv_lhs => rw [show C + x = x + 1 * C by ring]
  exact Int.add_mul_emod_self

/-- Unfolding of `report` into explicit records, for proof convenience. -/
theorem report_eq (now : Int) (comp : String) (t : IncidentAlertPolicy) :
    report now comp t =
      if t.limit > 0 ∧ t.counters + 1 ≥ t.limit then
        ({ entity := comp, counters := 0, evalWindowSeconds := t.evalWindowSeconds,
           alerts := [], limitInWindow := t.limitInWindow, limit := t.limit,
           lastUpdatedAt := now }, true)
      else if t.limitInWindow > 0 ∧
          (((now :: t.alerts).filter
              (fun v => now - v < t.evalWindowSeconds)).length : Int)
            ≥ t.limitInWindow then
        ({ entity := comp, counters := 0, evalWindowSeconds := t.evalWindowSeconds,
           alerts := [], limitInWindow := t.limitInWindow, limit := t.limit,
           lastUpdatedAt := now }, true)
      else
        ({ entity := comp, counters := t.counters + 1,
           evalWindowSeconds := t.evalWindowSeconds,
           alerts := (now :: t.alerts).filter
             (fun v => now - v < t.evalWindowSeconds),
           limitInWindow := t.limitInWindow, limit := t.limit,
           lastUpdatedAt := now }, false) := rfl

theorem runTrack_singleton (eval : AlertPolicyCfg) (comp : String) (ts : List Int)
    (tr : IncidentAlertPolicy) :
    runTrack eval comp ts [(comp, tr)]
      = ([(comp, (reportRun comp ts tr).1)], (reportRun comp ts tr).2) := by
  induction ts generalizing tr with
  | nil => simp [runTrack, reportRun]
  | cons t ts ih =>
      simp only [runTrack, reportRun, trackIncident, List.lookup, beq_self_eq_true,
        updateTracker, List.map, if_pos]
      simp [ih]

theorem runTrack_cons_empty (eval : AlertPolicyCfg) (comp : String) (t : Int)
    (ts : List Int) :
    runTrack eval comp (t :: ts) []
      = ([(comp, (reportRun comp (t :: ts) (newPolicy eval t)).1)],
          (reportRun comp (t :: ts) (newPolicy eval t)).2) := by
  simp only [runTrack, reportRun, trackIncident, List.lookup, List.nil_append,
    runTrack_singleton]

theorem reportRun_ceiling (C : Int) (comp : String) (ts : List Int)
    (tr : IncidentAlertPolicy) (hLim : tr.limit = C) (hLIW : tr.limitInWindow = 0)
    (h0 : 0 ≤ tr.counters) (h1 : tr.counters < C)
    (hA : tr.counters = 0 → tr.alerts = []) :
    (reportRun comp ts tr).2
        = (List.range ts.length).map
            (fun i : Nat => decide ((tr.counters + (i : Int) + 1) % C = 0))
      ∧ (reportRun comp ts tr).1.counters = (tr.counters + ts.length) % C
      ∧ ((tr.counters + (ts.length : Int)) % C = 0 →
          (reportRun comp ts tr).1.alerts = []) := by
  induction ts generalizing tr with
  | nil =>
      refine ⟨by simp [reportRun], ?_, ?_⟩
      · simpa [reportRun] using (Int.emod_eq_of_lt h0 h1).symm
      · intro h
        rw [show ((([] : List Int).length : Int) = 0) by simp, add_zero,
          Int.emod_eq_of_lt h0 h1] at h
        simpa [reportRun] using hA h
  | cons t ts ih =>
      have hrr : reportRun comp (t :: ts) tr
          = ((reportRun comp ts (report t comp tr).1).1,
              (report t comp tr).2 :: (reportRun comp ts (report t comp tr).1).2) :=
        rfl
      by_cases hreset : tr.counters + 1 ≥ C
      · -- ceiling reached on this call: reset and fire
        have hstep : report t comp tr
            = ({ entity := comp, counters := 0,
                  evalWindowSeconds := tr.evalWindowSeconds, alerts := [],
                  limitInWindow := tr.limitInWindow, limit := tr.limit,
                  lastUpdatedAt := t }, true) := by
          rw [report_eq, if_pos ⟨by omega, by omega⟩]
        obtain ⟨ihres, ihcnt, ihal⟩ := ih
          { entity := comp
            counters := 0
            evalWindowSeconds := tr.evalWindowSeconds
            alerts := []
            limitInWindow := tr.limitInWindow
            limit := tr.limit
            lastUpdatedAt := t } hLim hLIW le_rfl (by show (0:Int) < C; omega)
            (fun _ => rfl)
        rw [hrr, hstep]
        simp only at ihres ihcnt ihal ⊢
        refine ⟨?_, ?_, ?_⟩
        · rw [ihres, List.length_cons, List.range_succ_eq_map, List.map_cons,
            List.map_map]
          refine congrArg₂ _ ?_ (List.map_congr_left fun i _ => ?_)
          · symm
            rw [decide_eq_true_eq, Nat.cast_zero, add_zero,
              show tr.counters + 1 = C by omega]
            exact Int.emod_self
          · show decide ((0 + (i : Int) + 1) % C = 0)
                = decide ((tr.counters + ((i : Int) + 1) + 1) % C = 0)
            rw [show tr.counters + ((i : Int) + 1) + 1 = C + ((i : Int) + 1) by omega,
              emod_add_cancel, zero_add]
        · rw [ihcnt, List.length_cons, Nat.cast_succ,
            show tr.counters + ((ts.length : Int) + 1) = C + (ts.length : Int) by omega,
            emod_add_cancel, zero_add]
        · intro h
          apply ihal
          rw [List.length_cons, Nat.cast_succ,
            show tr.counters + ((ts.length : Int) + 1) = C + (ts.length : Int) by omega,
            emod_add_cancel] at h
          rw [zero_add]
          exact h
      · -- below the ceiling: count up, no alert
        have hstep : report t comp tr
            = ({ entity := comp, counters := tr.counters + 1,
                  evalWindowSeconds := tr.evalWindowSeconds,
                  alerts := (t :: tr.alerts).filter
                    (fun v => t - v < tr.evalWindowSeconds),
                  limitInWindow := tr.limitInWindow, limit := tr.limit,
                  lastUpdatedAt := t }, false) := by
          rw [report_eq, if_neg (by omega), if_neg (by simp [hLIW])]
        obtain ⟨ihres, ihcnt, ihal⟩ := ih
          { entity := comp
            counters := tr.counters + 1
            evalWindowSeconds := tr.evalWindowSeconds
            alerts := (t :: tr.alerts).filter (fun v => t - v < tr.evalWindowSeconds)
            limitInWindow := tr.limitInWindow
            limit := tr.limit
            lastUpdatedAt := t } hLim hLIW
            (by show (0:Int) ≤ tr.counters + 1; omega)
            (by show tr.counters + 1 < C; omega)
            (by intro h; exact absurd h (by show tr.counters + 1 ≠ 0; omega))
        rw [hrr, hstep]
        simp only at ihres ihcnt ihal ⊢
        refine ⟨?_, ?_, ?_⟩
        · rw [ihres, List.length_cons, List.range_succ_eq_map, List.map_cons,
            List.map_map]
          refine congrArg₂ _ ?_ (List.map_congr_left fun i _ => ?_)
          · symm
            rw [decide_eq_false_iff_not, Nat.cast_zero, add_zero,
              Int.emod_eq_of_lt (by omega) (by omega)]
            omega
          · show decide ((tr.counters + 1 + (i : Int) + 1) % C = 0)
                = decide ((tr.counters + ((i : Int) + 1) + 1) % C = 0)
            exact congrArg (fun z => decide (z % C = 0)) (by ring)
        · rw [ihcnt, List.length_cons, Nat.cast_succ]
          exact congrArg (fun z => z % C) (by ring)
        · intro h
          apply ihal
          rw [List.length_cons, Nat.cast_succ] at h
          rw [show tr.counters + 1 + (ts.length : Int)
              = tr.counters + ((ts.length : Int) + 1) by ring]
          exact h

/-! ### Claim C1 -/

/-- Claim C1 is false as stated at Ceiling C = 1: starting from a fresh
tracker, both the first and the second (the (C+1)-th) `trackIncident` call
return true, whereas the claim asserts the (C+1)-th call returns false. -/
theorem c1_counterexample :
    (runTrack ⟨1, 0, 0⟩ "c" [0, 1] []).2 = [true, true] := by decide

/-- Claim C1 (amended): under a policy with Ceiling = C ≥ 1 and
CeilingInMovingWindow = 0, in a run of consecutive `trackIncident` calls for
one component the k-th call (1-based) returns true exactly when C divides k;
the stored counter afterwards equals the number of calls modulo C, and is 0
with an empty alert set right after each firing call.  For C ≥ 2 this gives
the original claim; for C = 1 every call, including the (C+1)-th, fires. -/
theorem c1_theorem (C W : Int) (hC : 1 ≤ C) (comp : String) (ts : List Int) :
    (runTrack ⟨C, W, 0⟩ comp ts []).2
        = (List.range ts.length).map
            (fun k : Nat => decide (((k : Int) + 1) % C = 0))
      ∧ (((runTrack ⟨C, W, 0⟩ comp ts []).1.lookup comp).map
            IncidentAlertPolicy.counters
          = if ts.isEmpty then none else some ((ts.length : Int) % C))
      ∧ ((¬ ts.isEmpty ∧ (ts.length : Int) % C = 0) →
          ((runTrack ⟨C, W, 0⟩ comp ts []).1.lookup comp).map
              IncidentAlertPolicy.alerts
            = some []) := by
  cases ts with
  | nil => simp [runTrack]
  | cons t ts =>
      obtain ⟨hres, hcnt, hal⟩ := reportRun_ceiling C comp (t :: ts)
        (newPolicy ⟨C, W, 0⟩ t) rfl rfl le_rfl (by show (0:Int) < C; omega)
        (fun _ => rfl)
      rw [runTrack_cons_empty]
      refine ⟨?_, ?_, ?_⟩
      · rw [hres]
        refine List.map_congr_left fun i _ => ?_
        show decide (((newPolicy ⟨C, W, 0⟩ t).counters + (i : Int) + 1) % C = 0)
            = decide (((i : Int) + 1) % C = 0)
        refine congrArg (fun z => decide (z % C = 0)) ?_
        show 0 + (i : Int) + 1 = (i : Int) + 1
        ring
      · simp only [List.lookup, beq_self_eq_true, if_pos, Option.map_some']
        rw [hcnt]
        show some ((0 + ((t :: ts).length : Int)) % C) = _
        rw [zero_add]
        simp
      · intro hcond
        have h9 : ((newPolicy ⟨C, W, 0⟩ t).counters + (((t :: ts).length : Nat) : Int)) % C
            = 0 := by
          show (0 + ((t :: ts).length : Int)) % C = 0
          rw [zero_add]
          exact hcond.2
        simp only [List.lookup, beq_self_eq_true, if_pos, Option.map_some']
        rw [hal h9]

/-- Witness for `c1_theorem` at C = 3, four calls: results
false, false, true, false and counter 4 mod 3 = 1. -/
theorem c1_witness :
    ((1 : Int) ≤ 3)
    ∧ ((runTrack ⟨3, 0, 0⟩ "c" [0, 10, 20, 30] []).2
          = (List.range ([0, 10, 20, 30] : List Int).length).map
              (fun k : Nat => decide (((k : Int) + 1) % 3 = 0))
        ∧ (((runTrack ⟨3, 0, 0⟩ "c" [0, 10, 20, 30] []).1.lookup "c").map
              IncidentAlertPolicy.counters
            = if ([0, 10, 20, 30] : List Int).isEmpty then none
              else some ((([0, 10, 20, 30] : List Int).length : Int) % 3))
        ∧ ((¬ ([0, 10, 20, 30] : List Int).isEmpty
              ∧ ((([0, 10, 20, 30] : List Int).length : Int) % 3 = 0)) →
            ((runTrack ⟨3, 0, 0⟩ "c" [0, 10, 20, 30] []).1.lookup "c").map
                IncidentAlertPolicy.alerts
              = some [])) :=
  ⟨by norm_num, c1_theorem 3 0 (by norm_num) "c" [0, 10, 20, 30]⟩

/-! ### Claim C2 -/

theorem second_pos : (0 : Int) < second := by norm_num [second]

theorem window_pos (W : Int) (hW : 1 ≤ W) : (0 : Int) < W * second := by
  have := second_pos
  nlinarith

/-- One `report` step of a tracker whose alerts hold exactly the previous
failure time, when the next failure is more than the window away: the old
entry is evicted, no alert fires, and the new entry is the only one left. -/
theorem report_sparse_step (W K t prev : Int) (hW : 1 ≤ W) (hK : 2 ≤ K)
    (comp : String) (tr : IncidentAlertPolicy)
    (hLim : tr.limit = 0) (hLIW : tr.limitInWindow = K)
    (hWin : tr.evalWindowSeconds = W * second)
    (hAl : tr.alerts = [prev]) (hgap : prev + W * second < t) :
    report t comp tr
      = ({ entity := comp
           counters := tr.counters + 1
           evalWindowSeconds := tr.evalWindowSeconds
           alerts := [t]
           limitInWindow := tr.limitInWindow
           limit := tr.limit
           lastUpdatedAt := t }, false) := by
  have hkeep : (decide (t - t < tr.evalWindowSeconds)) = true := by
    rw [decide_eq_true_eq, hWin]
    have := window_pos W hW
    omega
  have hdrop : (decide (t - prev < tr.evalWindowSeconds)) = false := by
    rw [decide_eq_false_iff_not, hWin]
    omega
  have hfil : (t :: tr.alerts).filter (fun v => t - v < tr.evalWindowSeconds)
      = [t] := by
    rw [hAl, List.filter_cons, List.filter_cons, List.filter_nil]
    rw [if_pos hkeep, if_neg (by rw [hdrop]; simp)]
  rw [report_eq, if_neg (by omega), hfil, if_neg (by simp; omega)]

/-- Failures spaced more than the moving window apart never fire under a
pure moving-window policy with threshold at least 2. -/
theorem reportRun_sparse (W K : Int) (hW : 1 ≤ W) (hK : 2 ≤ K) (comp : String)
    (ts : List Int) (prev : Int) (tr : IncidentAlertPolicy)
    (hLim : tr.limit = 0) (hLIW : tr.limitInWindow = K)
    (hWin : tr.evalWindowSeconds = W * second)
    (hAl : tr.alerts = [prev])
    (hch : List.Chain' (fun a b => a + W * second < b) (prev :: ts)) :
    (reportRun comp ts tr).2.all (fun b => !b) = true := by
  induction ts generalizing tr prev with
  | nil => simp [reportRun]
  | cons t ts ih =>
      obtain ⟨hgap, hch'⟩ := List.chain'_cons.mp hch
      have hstep := report_sparse_step W K t prev hW hK comp tr hLim hLIW hWin
        hAl hgap
      show ((report t comp tr).2
          :: (reportRun comp ts (report t comp tr).1).2).all (fun b => !b) = true
      rw [hstep]
      simp only [List.all_cons, Bool.not_false, Bool.true_and]
      exact ih t _ hLim hLIW hWin rfl hch'


/-- Runs of `trackIncident` from an empty registry under a pure
moving-window policy never fire when the failure times are pairwise more
than the window apart and the threshold is at least 2. -/
theorem c2_runTrack_sparse (W K : Int) (hW : 1 ≤ W) (hK : 2 ≤ K)
    (comp : String) (ts : List Int)
    (hch : List.Chain' (fun a b => a + W * second < b) ts) :
    (runTrack ⟨0, W, K⟩ comp ts []).2.all (fun b => !b) = true := by
  cases ts with
  | nil => simp [runTrack]
  | cons t ts =>
      rw [runTrack_cons_empty]
      have hwin0 : (newPolicy ⟨0, W, K⟩ t).evalWindowSeconds = W * second := by
        show timeDuration W 1 second = W * second
        rw [timeDuration, if_neg (by omega)]
      have hkeep : (decide (t - t < (newPolicy ⟨0, W, K⟩ t).evalWindowSeconds))
          = true := by
        rw [decide_eq_true_eq, hwin0]
        have := window_pos W hW
        omega
      have hfil : (t :: (newPolicy ⟨0, W, K⟩ t).alerts).filter
          (fun v => t - v < (newPolicy ⟨0, W, K⟩ t).evalWindowSeconds) = [t] := by
        show (t :: []).filter _ = [t]
        rw [List.filter_cons, List.filter_nil, if_pos hkeep]
      have hstep : report t comp (newPolicy ⟨0, W, K⟩ t)
          = ({ entity := comp
               counters := 1
               evalWindowSeconds := (newPolicy ⟨0, W, K⟩ t).evalWindowSeconds
               alerts := [t]
               limitInWindow := K
               limit := 0
               lastUpdatedAt := t }, false) := by
        rw [report_eq, if_neg (by show ¬ ((0:Int) > 0 ∧ _); omega), hfil,
          if_neg (by show ¬ (K > 0 ∧ ([t].length : Int) ≥ K); simp; omega)]
        rfl
      show ((report t comp (newPolicy ⟨0, W, K⟩ t)).2
          :: (reportRun comp ts (report t comp (newPolicy ⟨0, W, K⟩ t)).1).2).all
            (fun b => !b) = true
      rw [hstep]
      simp only [List.all_cons, Bool.not_false, Bool.true_and]
      exact reportRun_sparse W K hW hK comp ts t _ rfl rfl hwin0 rfl hch

/-- Claim C2 (amended, W ≥ 1): under a policy with Ceiling = 0 and
CeilingInMovingWindow = K > 0 and a moving window of W ≥ 1 seconds, a
report fires and resets exactly when at least K recorded failure times
(including the current one) are younger than W seconds; every surviving
alert entry is younger than W seconds; and failures pairwise spaced more
than W seconds apart never fire when K ≥ 2.  (For W = 0 the code falls
back to a 1-second window, which is the counterexample to the claim as
stated.) -/
theorem c2_theorem (W K now : Int) (comp : String) (st : IncidentAlertPolicy)
    (ts : List Int) (hW : 1 ≤ W) (hK : 0 < K)
    (hLim : st.limit = 0) (hLIW : st.limitInWindow = K)
    (hWin : st.evalWindowSeconds = W * second) :
    ((report now comp st).2 = true
        ↔ K ≤ (((now :: st.alerts).filter
            (fun v => now - v < W * second)).length : Int))
      ∧ ((report now comp st).2 = true →
          (report now comp st).1.counters = 0 ∧ (report now comp st).1.alerts = [])
      ∧ (((report now comp st).1.alerts).all
          (fun v => decide (now - v < W * second)) = true)
      ∧ (2 ≤ K → List.Chain' (fun a b => a + W * second < b) ts →
          (runTrack ⟨0, W, K⟩ comp ts []).2.all (fun b => !b) = true) := by
  rw [report_eq, if_neg (by omega)]
  rw [hWin, hLIW]
  by_cases hfire : K ≤ (((now :: st.alerts).filter
      (fun v => now - v < W * second)).length : Int)
  · rw [if_pos (by constructor <;> omega)]
    refine ⟨by simpa using hfire, fun _ => ⟨rfl, rfl⟩, by simp, ?_⟩
    · intro hK2 hch
      exact c2_runTrack_sparse W K hW hK2 comp ts hch
  · rw [if_neg (by omega)]
    refine ⟨by simpa using hfire, by simp, ?_, ?_⟩
    · simp only [List.all_eq_true, decide_eq_true_eq]
      intro v hv
      have := List.of_mem_filter hv
      simpa using this
    · intro hK2 hch
      exact c2_runTrack_sparse W K hW hK2 comp ts hch

/-- Claim C2 is false as stated at W = 0, K = 2: two failures 0.5 s apart
(more than W = 0 s apart) make the second call fire, although fewer than
K = 2 recorded timestamps lie within the last 0 seconds even with a
non-strict age reading.  The code substitutes a 1-second window when
`MovingWindowSeconds = 0` (`util.TimeDuration` default). -/
theorem c2_counterexample :
    (runTrack ⟨0, 0, 2⟩ "c" [0, 500000000] []).2 = [false, true]
    ∧ ((([500000000, 0] : List Int).filter
          (fun v => (500000000 : Int) - v ≤ 0 * second)).length : Int) < 2
    ∧ (0 : Int) + 0 * second < 500000000 := by
  refine ⟨by decide, by decide, by decide⟩

/-- A concrete tracker state for the C2 witness. -/
def c2WitnessState : IncidentAlertPolicy :=
  { entity := "c"
    counters := 1
    evalWindowSeconds := 2 * second
    alerts := [9000000000]
    limitInWindow := 2
    limit := 0
    lastUpdatedAt := 9000000000 }

/-- Witness for `c2_theorem` at W = 2 s, K = 2. -/
theorem c2_witness :
    ((1 : Int) ≤ 2 ∧ (0 : Int) < 2
      ∧ c2WitnessState.limit = 0 ∧ c2WitnessState.limitInWindow = 2
      ∧ c2WitnessState.evalWindowSeconds = 2 * second)
    ∧ (((report 10000000000 "c" c2WitnessState).2 = true
        ↔ 2 ≤ ((((10000000000 : Int) :: c2WitnessState.alerts).filter
            (fun v => (10000000000 : Int) - v < 2 * second)).length : Int))
      ∧ ((report 10000000000 "c" c2WitnessState).2 = true →
          (report 10000000000 "c" c2WitnessState).1.counters = 0
            ∧ (report 10000000000 "c" c2WitnessState).1.alerts = [])
      ∧ (((report 10000000000 "c" c2WitnessState).1.alerts).all
          (fun v => decide ((10000000000 : Int) - v < 2 * second)) = true)
      ∧ (2 ≤ (2 : Int) →
          List.Chain' (fun a b => a + 2 * second < b)
            ([0, 10000000000] : List Int) →
          (runTrack ⟨0, 2, 2⟩ "c" ([0, 10000000000] : List Int) []).2.all
            (fun b => !b) = true)) :=
  ⟨⟨by norm_num, by norm_num, rfl, rfl, rfl⟩,
   c2_theorem 2 2 10000000000 "c" c2WitnessState [0, 10000000000]
     (by norm_num) (by norm_num) rfl rfl rfl⟩

/-! ### Claim C3 -/

theorem lookup_eraseTracker (m : TrackerMap) (comp : String) :
    (eraseTracker m comp).lookup comp = none := by
  induction m with
  | nil => rfl
  | cons p m ih =>
      obtain ⟨k, w⟩ := p
      by_cases hk : k = comp
      · simp only [eraseTracker, List.filter_cons] at ih ⊢
        rw [if_neg (by simp [hk])]
        exact ih
      · simp only [eraseTracker, List.filter_cons] at ih ⊢
        rw [if_pos (by simp [hk])]
        simp only [List.lookup]
        rw [beq_eq_false_iff_ne.mpr (Ne.symm hk)]
        exact ih

theorem lookup_updateTracker (m : TrackerMap) (comp : String)
    (v tr : IncidentAlertPolicy) (h : m.lookup comp = some tr) :
    (updateTracker m comp v).lookup comp = some v := by
  induction m with
  | nil => simp [List.lookup] at h
  | cons p m ih =>
      obtain ⟨k, w⟩ := p
      by_cases hk : k = comp
      · subst hk
        simp only [updateTracker, List.map_cons, if_pos]
        simp [List.lookup]
      · simp only [updateTracker, List.map_cons] at ih ⊢
        rw [if_neg (by simp [hk])]
        simp only [List.lookup] at h ⊢
        rw [beq_eq_false_iff_ne.mpr (Ne.symm hk)] at h ⊢
        exact ih h

/-- Claim C3 is false as stated: a clear arriving when `Counters` is
already 0 (the state right after an escalation reset under Ceiling = 1)
does not remove the tracker entry; the entry survives with
`Counters = -1`. -/
theorem c3_counterexample :
    ((ClearIncident "c"
        [("c", (report 0 "c" (newPolicy ⟨1, 0, 0⟩ 0)).1)]).lookup "c").map
      IncidentAlertPolicy.counters = some (-1) := by decide

/-- Claim C3 (amended): for a component with a tracker entry,
`ClearIncident` decrements `Counters` by one and removes the entry exactly
when the decremented value equals 0; for any other value (including the
reachable -1 after a clear at 0) the entry stays, with the decremented
counter stored. -/
theorem c3_theorem (m : TrackerMap) (comp : String)
    (tr : IncidentAlertPolicy) (h : m.lookup comp = some tr) :
    (tr.counters - 1 = 0 → (ClearIncident comp m).lookup comp = none)
    ∧ (tr.counters - 1 ≠ 0 →
        (ClearIncident comp m).lookup comp
          = some { tr with counters := tr.counters - 1 }) := by
  have hCl : ClearIncident comp m
      = if tr.counters - 1 = 0 then eraseTracker m comp
        else updateTracker m comp { tr with counters := tr.counters - 1 } := by
    unfold ClearIncident
    rw [h]
    rfl
  rw [hCl]
  constructor
  · intro h0
    rw [if_pos h0]
    exact lookup_eraseTracker m comp
  · intro h0
    rw [if_neg h0]
    exact lookup_updateTracker m comp _ tr h

/-- A concrete tracker map for the C3 witness. -/
def c3WitnessTr : IncidentAlertPolicy :=
  { entity := "c"
    counters := 5
    evalWindowSeconds := second
    alerts := []
    limitInWindow := 0
    limit := 7
    lastUpdatedAt := 0 }

/-- Witness for `c3_theorem` on a singleton registry with counter 5. -/
theorem c3_witness :
    ([("c", c3WitnessTr)] : TrackerMap).lookup "c" = some c3WitnessTr
    ∧ ((c3WitnessTr.counters - 1 = 0 →
          (ClearIncident "c" [("c", c3WitnessTr)]).lookup "c" = none)
      ∧ (c3WitnessTr.counters - 1 ≠ 0 →
          (ClearIncident "c" [("c", c3WitnessTr)]).lookup "c"
            = some { c3WitnessTr with counters := c3WitnessTr.counters - 1 })) :=
  ⟨rfl, c3_theorem [("c", c3WitnessTr)] "c" c3WitnessTr rfl⟩

/-! ### Claim C4 -/

/-- Claim C4 is false as stated: in in-cluster mode, after three other
components (with Ceiling = 1 policies) escalate at time 0, a
`ReportIncident` for component "d" whose policy has Ceiling = 0 and
CeilingInMovingWindow = 0 still returns true (calls `CreateIncident`)
via the cross-component correlation path. -/
theorem c4_counterexample :
    (ReportIncident true 0 "d" ⟨0, 0, 0⟩
      (ReportIncident true 0 "c" ⟨1, 0, 0⟩
        (ReportIncident true 0 "b" ⟨1, 0, 0⟩
          (ReportIncident true 0 "a" ⟨1, 0, 0⟩ []).1).1).1).2 = true := by
  decide

/-- Claim C4 (amended): with Ceiling = 0 the tracker path is skipped
entirely (the registry is left unchanged), and `CreateIncident` can be
reached only through the cross-component correlation count; in particular
with in-cluster correlation disabled no escalation ever happens for such a
component. -/
theorem c4_theorem (k8sEnabled : Bool) (now : Int) (comp : String)
    (eval : AlertPolicyCfg) (m : TrackerMap) (h0 : eval.ceiling = 0) :
    ReportIncident k8sEnabled now comp eval m
      = (m, decide (correlationCount k8sEnabled now m > 2)) := by
  rw [ReportIncident, if_neg (by omega)]
  by_cases h : correlationCount k8sEnabled now m > 2
  · rw [if_pos h]
    simp [h]
  · rw [if_neg h]
    simp [h]

/-- Witness for `c4_theorem`: a zero policy on an empty registry with
correlation off. -/
theorem c4_witness :
    (⟨0, 5, 0⟩ : AlertPolicyCfg).ceiling = 0
    ∧ ReportIncident false 3 "c" ⟨0, 5, 0⟩ []
        = ([], decide (correlationCount false 3 [] > 2)) :=
  ⟨rfl, c4_theorem false 3 "c" ⟨0, 5, 0⟩ [] rfl⟩


/-! ### Claim C6: consumer receive timeout -/

/-- The consumer per-receive timeout (src/cfg/pulsar-latency.go:126):
`util.TimeDuration(5+(maxPayloadSize/102400), 10, time.Second)`.
`maxPayloadSize` is a Go int that is always non-negative (it is a maximum
of byte lengths), modelled as `Nat`; Go integer division agrees with `Nat`
division on non-negative operands. -/
def receiveTimeout (maxPayloadSize : Nat) : Int :=
  timeDuration (5 + ((maxPayloadSize / 102400 : Nat) : Int)) 10 second

/-- Claim C6 is false as stated: at maxPayloadSize = 0 the computed
per-receive timeout is 5 s, not max(10 s, 5 s + 0) = 10 s.  The second
argument 10 of `util.TimeDuration` is a default used only when the first
argument is zero, not a lower bound. -/
theorem c6_counterexample :
    receiveTimeout 0 = 5 * second
    ∧ receiveTimeout 0
        ≠ max (10 * second) ((5 + ((0 / 102400 : Nat) : Int)) * second) := by
  refine ⟨by decide, by decide⟩

/-- Claim C6 (amended): the per-receive timeout always equals
(5 + maxPayloadSize/102400) seconds (integer division); the 10-second
default of TimeDuration is dead because the first argument is at least 5. -/
theorem c6_theorem (maxPayloadSize : Nat) :
    receiveTimeout maxPayloadSize
      = (5 + ((maxPayloadSize / 102400 : Nat) : Int)) * second := by
  rw [receiveTimeout, timeDuration, if_neg (by omega)]

/-! ### Claim C9: partitioned-topic creation -/

/-- CreatePartitionTopic (src/topic/partition-topics.go:104-134), from the
point where the HTTP round-trip has completed.  `doResult` is the outcome
of `client.Do`: a transport error, or a response status code.  The returned
pair is (Go return value, whether `pt.log.Errorf` ran).  After a successful
`Do` the local `err` is nil; the branch taken for a status code other than
204 and 409 executes `return err` with that nil value, so both branches
return nil. -/
def createPartitionTopic (doResult : Except String Int) :
    Except String Unit × Bool :=
  match doResult with
  | .error e => (.error e, true)
  | .ok statusCode =>
      if statusCode ≠ 204 ∧ statusCode ≠ 409 then
        (.ok (), true)
      else
        (.ok (), false)

/-- Modelled from the spec (claim C9's reading): success (nil error) iff
the PUT returned 204 or 409; anything else is a failure. -/
def claimedCreateResult (doResult : Except String Int) : Except String Unit :=
  match doResult with
  | .error e => .error e
  | .ok statusCode =>
      if statusCode = 204 ∨ statusCode = 409 then .ok ()
      else .error "CREATE PartitionTopic response status code"

/-- Evaluation at the failing input: a PUT answered with status 500 makes
`CreatePartitionTopic` log an error yet return nil (success), contradicting
the claim that any status other than 204/409 is reported as a failure. -/
theorem c9_code_eval :
    createPartitionTopic (.ok 500) = (.ok (), true)
    ∧ claimedCreateResult (.ok 500)
        = .error "CREATE PartitionTopic response status code" := by
  refine ⟨rfl, ?_⟩
  rw [claimedCreateResult]
  rw [if_neg (by omega)]

/-! ### Claim C5: the standard-deviation outlier bucket -/

/-- StandardDeviation (src/stats/standard-dev.go:7), over exact reals.
Go float64 rounding is not modelled; the claim under test concerns the
comparison structure of the flag, not floating-point precision. -/
structure StandardDeviation where
  name : String
  sum : ℝ
  mean : ℝ
  buckets : List ℝ
  std : ℝ

/-- NewStandardDeviation (src/stats/standard-dev.go:16); unassigned fields
take their zero values. -/
def NewStandardDeviation (name : String) : StandardDeviation :=
  { name := name, sum := 0, mean := 0, buckets := [], std := 0 }

/-- StandardDeviation.Push (src/stats/standard-dev.go:24): append the
sample, update the running sum, recompute mean and population σ over the
stored buckets.  The method also returns (std, mean, flag); the struct part
is here, the flag is `pushWithin` below (a Prop, since real comparison is
not computable). -/
noncomputable def push (sd : StandardDeviation) (num : ℝ) : StandardDeviation :=
  let buckets := sd.buckets ++ [num]
  let sum := sd.sum + num
  let counter : ℕ := buckets.length
  let mean := sum / counter
  let std := Real.sqrt ((buckets.map (fun v => (v - mean) ^ 2)).sum / counter)
  { sd with buckets := buckets, sum := sum, mean := mean, std := std }

/-- The `within2Sigma` return value of Push (src/stats/standard-dev.go:38):
`num-sd.Mean < 2*std || counter < 10`, on the post-push mean/σ/count. -/
noncomputable def pushWithin (sd : StandardDeviation) (num : ℝ) : Prop :=
  num - (push sd num).mean < 2 * (push sd num).std
    ∨ (push sd num).buckets.length < 10

/-- A sequence of pushes, as performed by the per-cluster bucket. -/
noncomputable def pushAll (sd : StandardDeviation) (xs : List ℝ) : StandardDeviation :=
  xs.foldl push sd

/-- Modelled from the spec: the running mean μ over the stored samples. -/
noncomputable def specMean (samples : List ℝ) : ℝ :=
  samples.sum / samples.length

/-- Modelled from the spec: the population standard deviation σ over the
stored samples. -/
noncomputable def specSigma (samples : List ℝ) : ℝ :=
  Real.sqrt ((samples.map (fun v => (v - specMean samples) ^ 2)).sum
    / samples.length)

theorem pushAll_buckets_sum (xs : List ℝ) (sd : StandardDeviation) :
    (pushAll sd xs).buckets = sd.buckets ++ xs
      ∧ (pushAll sd xs).sum = sd.sum + xs.sum := by
  induction xs generalizing sd with
  | nil => simp [pushAll]
  | cons x xs ih =>
      have h := ih (push sd x)
      constructor
      · rw [show pushAll sd (x :: xs) = pushAll (push sd x) xs from rfl, h.1]
        show (sd.buckets ++ [x]) ++ xs = sd.buckets ++ x :: xs
        simp
      · rw [show pushAll sd (x :: xs) = pushAll (push sd x) xs from rfl, h.2]
        show (sd.sum + x) + xs.sum = sd.sum + (x :: xs).sum
        simp
        ring

/-- Claim C5 (amended): the flag returned by the bucket's Push is true
exactly when the sample count is below 10 or x − μ < 2σ (not 6σ), with μ
and σ the sample mean and population standard deviation over the stored
samples including x.  The substance is the invariant that the running
`Sum` field of a bucket reached by pushes equals the sum of its stored
samples. -/
theorem push_flag_iff (name : String) (xs : List ℝ) (x : ℝ) :
    pushWithin (pushAll (NewStandardDeviation name) xs) x
      ↔ (xs.length + 1 < 10
          ∨ x - specMean (xs ++ [x]) < 2 * specSigma (xs ++ [x])) := by
  obtain ⟨hb, hs⟩ := pushAll_buckets_sum xs (NewStandardDeviation name)
  have hb' : (pushAll (NewStandardDeviation name) xs).buckets = xs := by
    simpa [NewStandardDeviation] using hb
  have hs' : (pushAll (NewStandardDeviation name) xs).sum = xs.sum := by
    simpa [NewStandardDeviation] using hs
  have hmean : (push (pushAll (NewStandardDeviation name) xs) x).mean
      = specMean (xs ++ [x]) := by
    rw [push, specMean]
    simp only [hb', hs']
    rw [List.sum_append, List.length_append]
    norm_num
  have hstd : (push (pushAll (NewStandardDeviation name) xs) x).std
      = specSigma (xs ++ [x]) := by
    rw [push, specSigma]
    simp only [hb', hs']
    rw [show ((xs.sum + x) / ((xs ++ [x]).length : ℝ)) = specMean (xs ++ [x]) by
      rw [specMean, List.sum_append]
      norm_num]
  have hlen : (push (pushAll (NewStandardDeviation name) xs) x).buckets.length
      = xs.length + 1 := by
    rw [push]
    simp [hb']
  rw [pushWithin, hmean, hstd, hlen]
  tauto

/-- Claim C5 (amended): the within-bounds flag of the outlier bucket's Push
is true exactly when the sample count is below 10 or x − μ < 2σ (the code
compares against 2σ, not the claimed 6σ). -/
theorem c5_theorem (name : String) (xs : List ℝ) (x : ℝ) :
    pushWithin (pushAll (NewStandardDeviation name) xs) x
      ↔ (xs.length + 1 < 10
          ∨ x - specMean (xs ++ [x]) < 2 * specSigma (xs ++ [x])) :=
  push_flag_iff name xs x

/-- Claim C5 is false as stated (6σ): after nine samples of value 0, the
sample 10 gives μ = 1, σ = 3; 10 − μ = 9 is below 6σ = 18 (so the claim
predicts true with count = 10), but the code compares against 2σ = 6 and
returns false. -/
theorem c5_counterexample :
    ¬ pushWithin (pushAll (NewStandardDeviation "latency")
        (List.replicate 9 0)) 10
    ∧ ((List.replicate 9 (0:ℝ) ++ [10]).length < 10
        ∨ (10 : ℝ) - specMean (List.replicate 9 0 ++ [10])
            < 6 * specSigma (List.replicate 9 0 ++ [10])) := by
  have hmean : specMean (List.replicate 9 (0:ℝ) ++ [10]) = 1 := by
    rw [specMean, List.sum_append, List.length_append, List.sum_replicate]
    norm_num
  have hsigma : specSigma (List.replicate 9 (0:ℝ) ++ [10]) = 3 := by
    rw [specSigma, hmean, List.map_append, List.sum_append, List.map_replicate,
      List.sum_replicate, List.length_append]
    norm_num
    rw [show (9:ℝ) = 3 ^ 2 by norm_num,
      Real.sqrt_sq (by norm_num : (0:ℝ) ≤ 3)]
  constructor
  · rw [push_flag_iff]
    rw [hmean, hsigma]
    norm_num
  · right
    rw [hmean, hsigma]
    norm_num


/-! ### Payload generation and the message-id parser (cfg payload helpers)

Go strings and byte slices are modelled as `List Char` (all content in
scope is ASCII).  The random source `rand.Intn` behind `RandStringBytes`
is abstracted as an oracle function. -/

/-- The letter alphabet of util.RandStringBytes (src/util/util.go:42). -/
def letters : List Char :=
  "abcdefghijklmnopqrstuvwxyzABCDEFGHIJKLMNOPQRSTUVWXYZ".toList

/-- util.RandStringBytes (src/util/util.go:220): n bytes, each picked from
`letters` by `rand.Intn(len(letters))`, abstracted by the oracle `pick`
(reduced modulo the alphabet size, as Intn's result always is in range). -/
def randStringBytes (pick : Nat → Nat) (n : Nat) : List Char :=
  (List.range n).map (fun i => letters.getD (pick i % letters.length) 'a')

/-- Digit run parsed by strconv.Atoi: non-empty, all ASCII digits. -/
def parseDigits (s : List Char) : Option Nat :=
  if s ≠ [] ∧ s.all Char.isDigit = true then
    some (s.foldl (fun a c => a * 10 + (c.toNat - 48)) 0)
  else none

/-- strconv.Atoi: optional sign then digits; errors otherwise.  (The int64
range check is not modelled: no claim in scope involves out-of-range
numerals.) -/
def atoi (s : List Char) : Option Int :=
  match s with
  | [] => none
  | c :: rest =>
      if c = '+' then (parseDigits rest).map (fun n => (n : Int))
      else if c = '-' then (parseDigits rest).map (fun n => -(n : Int))
      else (parseDigits (c :: rest)).map (fun n => (n : Int))

/-- strings.Split(s, PrefixDelimiter), where PrefixDelimiter is the single
character "-". -/
def splitOnDash : List Char → List (List Char)
  | [] => [[]]
  | c :: rest =>
      if c = '-' then [] :: splitOnDash rest
      else
        match splitOnDash rest with
        | t :: ts => (c :: t) :: ts
        | [] => [[c]]

/-- Decimal digits of n, structurally recursive on a fuel bound so that
the definition reduces in the kernel. -/
def itoaAux : Nat → Nat → List Char
  | 0, _ => []
  | fuel + 1, n =>
      if n < 10 then [Nat.digitChar n]
      else itoaAux fuel (n / 10) ++ [Nat.digitChar (n % 10)]

/-- fmt.Sprintf("%d", n) for a non-negative loop index. -/
def itoa (n : Nat) : List Char := itoaAux (n + 1) n

/-- NumOfBytes (payload helpers): strip letters to get the number, strip
digits to get the unit, scale by the unit.  The regex [a-zA-Z]+ removal is
character filtering on ASCII. -/
def NumOfBytes (size : List Char) : Int :=
  let num := size.filter (fun c => !c.isAlpha)
  let unit := size.filter (fun c => !c.isDigit)
  match atoi num with
  | none => 0
  | some bytes =>
      let u := unit.map Char.toLower
      if u = "mb".toList ∨ u = "megabytes".toList ∨ u = "megabyte".toList
          ∨ u = "megab".toList then bytes * 1024 * 1024
      else if u = "kb".toList ∨ u = "kilobytes".toList ∨ u = "kilobyte".toList
          ∨ u = "kilob".toList then bytes * 1024
      else bytes

/-- GenPayload (payload helpers): if the prefix is longer than the
requested size the payload is the prefix alone; otherwise the prefix plus
random letters up to the size.  `NewPayload(size)` with Ceiling = Floor
makes `randRange` return exactly `size`, so `DefaultPayload` is
`RandStringBytes size`, inlined here with the oracle `pick`. -/
def GenPayload (pick : Nat → Nat) (pre size : List Char) : List Char × Int :=
  let numOfBytes := NumOfBytes size
  if (pre.length : Int) > numOfBytes then (pre, numOfBytes)
  else
    let n2 := numOfBytes - pre.length
    (pre ++ randStringBytes pick n2.toNat, n2)

/-- AllMsgPayloads (payload helpers).  `picks i` is the random oracle for
message i.  Returns the payload list and the maximum returned size
(`math.Max` over float64 of ints agrees with `max` on `Int` for the sizes
in range). -/
def AllMsgPayloads (picks : Nat → Nat → Nat) (pfx : List Char)
    (payloadSizes : List (List Char)) (numOfMsg : Int) :
    List (List Char) × Int :=
  let specifiedSizes : Int := payloadSizes.length
  let actualNumOfMsg : Int :=
    if specifiedSizes > numOfMsg then specifiedSizes
    else if numOfMsg > 1 then numOfMsg else 1
  let sizes := if payloadSizes.length = 0 then [['0']] else payloadSizes
  let ss : Nat := if payloadSizes.length = 0 then 1 else payloadSizes.length
  let items := (List.range actualNumOfMsg.toNat).map (fun i =>
    let idx := if i < ss then i else ss - 1
    GenPayload (picks i) (pfx ++ '-' :: (itoa i ++ ['-'])) (sizes.getD idx []))
  (items.map Prod.fst, items.foldl (fun m it => max m it.2) (pfx.length : Int))

/-- GetMessageID (payload helpers).  `none` models the Go panic (index out
of range on parts[1], reachable only when the prefix check passed on a
delimiter-free payload); `some` is the Go return value. -/
def GetMessageID (pfx s : List Char) : Option Int :=
  let parts := splitOnDash s
  if pfx ≠ parts.headD [] then some (-1)
  else
    match parts with
    | _ :: p1 :: _ =>
        match atoi p1 with
        | none => some (-2)
        | some index => some index
    | _ => none

/-! #### Digit and split lemmas -/

theorem digitChar_spec (d : Nat) (h : d < 10) :
    (Nat.digitChar d).isDigit = true ∧ (Nat.digitChar d).toNat - 48 = d := by
  interval_cases d <;> exact ⟨by decide, by decide⟩

theorem parseDigits_append_digit (s : List Char) (c : Char) (m : Nat)
    (h : parseDigits s = some m) (hc : c.isDigit = true) :
    parseDigits (s ++ [c]) = some (m * 10 + (c.toNat - 48)) := by
  rw [parseDigits] at h
  split at h
  · next hcond =>
      obtain ⟨hne, hall⟩ := hcond
      rw [parseDigits, if_pos ⟨by simp, by simp [List.all_append, hall, hc]⟩]
      rw [List.foldl_append]
      simp only [List.foldl_cons, List.foldl_nil]
      rw [Option.some.inj h]
  · exact absurd h (by simp)

theorem parseDigits_itoaAux (fuel n : Nat) (hf : n < fuel) :
    parseDigits (itoaAux fuel n) = some n := by
  induction fuel generalizing n with
  | zero => omega
  | succ fuel ih =>
      rw [itoaAux]
      by_cases h : n < 10
      · rw [if_pos h, parseDigits,
          if_pos ⟨by simp, by simp [(digitChar_spec n h).1]⟩]
        simp [(digitChar_spec n h).2]
      · rw [if_neg h]
        have hdiv := ih (n / 10) (by omega)
        rw [parseDigits_append_digit _ _ _ hdiv
            (digitChar_spec (n % 10) (by omega)).1,
          (digitChar_spec (n % 10) (by omega)).2]
        congr 1
        omega

theorem parseDigits_itoa (n : Nat) : parseDigits (itoa n) = some n :=
  parseDigits_itoaAux (n + 1) n (by omega)

theorem of_parseDigits_some (s : List Char) (m : Nat)
    (h : parseDigits s = some m) : s ≠ [] ∧ s.all Char.isDigit = true := by
  rw [parseDigits] at h
  split at h
  · next hcond => exact hcond
  · exact absurd h (by simp)

theorem atoi_itoa (n : Nat) : atoi (itoa n) = some (n : Int) := by
  have hp := parseDigits_itoa n
  obtain ⟨hne, hall⟩ := of_parseDigits_some _ _ hp
  cases hs : itoa n with
  | nil => exact absurd hs hne
  | cons d t =>
      rw [hs] at hp hall
      have hd : d.isDigit = true := by
        have := List.all_eq_true.mp hall d (by simp)
        simpa using this
      rw [atoi, if_neg (by rintro rfl; simp at hd), if_neg (by rintro rfl; simp at hd),
        hp]
      rfl

theorem itoa_all_digits (n : Nat) : (itoa n).all Char.isDigit = true :=
  (of_parseDigits_some _ _ (parseDigits_itoa n)).2

theorem dash_not_digit_mem (s : List Char) (h : s.all Char.isDigit = true) :
    '-' ∉ s := by
  intro hm
  have := List.all_eq_true.mp h '-' hm
  simp at this

theorem splitOnDash_ne_nil (s : List Char) : splitOnDash s ≠ [] := by
  cases s with
  | nil => simp [splitOnDash]
  | cons c rest =>
      rw [splitOnDash]
      by_cases h : c = '-'
      · rw [if_pos h]
        simp
      · rw [if_neg h]
        cases splitOnDash rest <;> simp

theorem splitOnDash_no_dash (s : List Char) (h : '-' ∉ s) :
    splitOnDash s = [s] := by
  induction s with
  | nil => rfl
  | cons c rest ih =>
      have hc : ¬ c = '-' := by
        intro hc
        exact h (by simp [hc])
      rw [splitOnDash, if_neg hc, ih (fun hm => h (by simp [hm]))]

theorem splitOnDash_append (a b : List Char) (ha : '-' ∉ a) :
    splitOnDash (a ++ '-' :: b) = a :: splitOnDash b := by
  induction a with
  | nil => simp [splitOnDash]
  | cons c a ih =>
      have hc : ¬ c = '-' := by
        intro hc
        exact ha (by simp [hc])
      rw [List.cons_append, splitOnDash, if_neg hc,
        ih (fun hm => ha (by simp [hm]))]

theorem mem_letters_ne_dash : ∀ c ∈ letters, c ≠ '-' := by decide

theorem randStringBytes_mem (pick : Nat → Nat) (n : Nat) (c : Char)
    (h : c ∈ randStringBytes pick n) : c ∈ letters := by
  rw [randStringBytes] at h
  rw [List.mem_map] at h
  obtain ⟨i, _, rfl⟩ := h
  rcases hg : letters.get? (pick i % letters.length) with _ | d
  · rw [List.getD_eq_getElem?_getD, ← List.get?_eq_getElem?, hg]
    decide
  · rw [List.getD_eq_getElem?_getD, ← List.get?_eq_getElem?, hg]
    exact List.get?_mem hg

theorem randStringBytes_no_dash (pick : Nat → Nat) (n : Nat) :
    '-' ∉ randStringBytes pick n := by
  intro hm
  exact mem_letters_ne_dash _ (randStringBytes_mem pick n _ hm) rfl

/-- Every payload produced by GenPayload is its prefix followed by a
dash-free tail. -/
theorem genPayload_shape (pick : Nat → Nat) (pre size : List Char) :
    ∃ tail, '-' ∉ tail ∧ (GenPayload pick pre size).1 = pre ++ tail := by
  rw [GenPayload]
  by_cases h : (pre.length : Int) > NumOfBytes size
  · rw [if_pos h]
    exact ⟨[], by simp, by simp⟩
  · rw [if_neg h]
    exact ⟨_, randStringBytes_no_dash _ _, rfl⟩

/-- Parsing a generated payload recovers the message index. -/
theorem getMessageID_genPayload (pick : Nat → Nat) (pfx : List Char)
    (hP : '-' ∉ pfx) (i : Nat) (size : List Char) :
    GetMessageID pfx (GenPayload pick (pfx ++ '-' :: (itoa i ++ ['-'])) size).1
      = some (i : Int) := by
  obtain ⟨tail, htail, hshape⟩ :=
    genPayload_shape pick (pfx ++ '-' :: (itoa i ++ ['-'])) size
  rw [hshape]
  have hassoc : (pfx ++ '-' :: (itoa i ++ ['-'])) ++ tail
      = pfx ++ '-' :: (itoa i ++ '-' :: tail) := by
    simp
  rw [hassoc]
  have hid : '-' ∉ itoa i := dash_not_digit_mem _ (itoa_all_digits i)
  rw [GetMessageID]
  simp only [splitOnDash_append _ _ hP, splitOnDash_append _ _ hid]
  rw [if_neg (by simp)]
  rw [atoi_itoa]


/-! ### Claim C7 -/

/-- Claim C7 is false as stated for prefixes containing the delimiter:
with prefix "a-b" the single generated payload is "a-b-0-", whose first
"-"-separated part "a" differs from the prefix, so GetMessageID returns
-1 instead of the index 0. -/
theorem c7_counterexample :
    (AllMsgPayloads (fun _ _ => 0) ['a', '-', 'b'] [] 1).1.length = 1
    ∧ GetMessageID ['a', '-', 'b']
        ((AllMsgPayloads (fun _ _ => 0) ['a', '-', 'b'] [] 1).1.getD 0 [])
      = some (-1) := by
  refine ⟨by decide, by decide⟩

/-- Claim C7 (amended): for every N ≥ 1, every size-token list, every
random oracle and every prefix free of the delimiter "-",
`AllMsgPayloads` returns exactly max(N, |sizes|) payloads and each
payload at position i parses back to `GetMessageID = i`. -/
theorem c7_theorem (picks : Nat → Nat → Nat) (pfx : List Char)
    (payloadSizes : List (List Char)) (N : Int) (hN : 1 ≤ N)
    (hP : '-' ∉ pfx) :
    (((AllMsgPayloads picks pfx payloadSizes N).1.length : Int)
        = max N (payloadSizes.length : Int))
    ∧ ((List.range (AllMsgPayloads picks pfx payloadSizes N).1.length).all
        (fun i => decide (GetMessageID pfx
            ((AllMsgPayloads picks pfx payloadSizes N).1.getD i [])
          = some (i : Int))) = true) := by
  constructor
  · simp only [AllMsgPayloads, List.length_map, List.length_range]
    split_ifs with h1 h2
    · rw [Int.toNat_of_nonneg (by omega)]
      omega
    · rw [Int.toNat_of_nonneg (by omega)]
      omega
    · rw [Int.toNat_of_nonneg (by omega)]
      omega
  · rw [List.all_eq_true]
    intro i hi
    rw [decide_eq_true_eq]
    have hlen : i < (AllMsgPayloads picks pfx payloadSizes N).1.length :=
      List.mem_range.mp hi
    rw [List.getD_eq_getElem?_getD, List.getElem?_eq_getElem hlen,
      Option.getD_some]
    have hopen : (AllMsgPayloads picks pfx payloadSizes N).1[i]
          = (GenPayload (picks i) (pfx ++ '-' :: (itoa i ++ ['-']))
              ((if payloadSizes.length = 0 then [['0']] else payloadSizes).getD
                (if i < (if payloadSizes.length = 0 then 1
                    else payloadSizes.length) then i
                  else (if payloadSizes.length = 0 then 1
                    else payloadSizes.length) - 1) [])).1 := by
      simp only [AllMsgPayloads] at hlen ⊢
      rw [List.getElem_map, List.getElem_map, List.getElem_range]
    rw [hopen]
    exact getMessageID_genPayload (picks i) pfx hP i _

/-- Witness for `c7_theorem`: prefix "m", one size token "15B", N = 2. -/
theorem c7_witness :
    ((1 : Int) ≤ 2 ∧ '-' ∉ (['m'] : List Char))
    ∧ ((((AllMsgPayloads (fun _ _ => 0) ['m'] [['1', '5', 'B']] 2).1.length : Int)
          = max 2 (([['1', '5', 'B']] : List (List Char)).length : Int))
      ∧ ((List.range
            (AllMsgPayloads (fun _ _ => 0) ['m'] [['1', '5', 'B']] 2).1.length).all
          (fun i => decide (GetMessageID ['m']
              ((AllMsgPayloads (fun _ _ => 0) ['m'] [['1', '5', 'B']] 2).1.getD i [])
            = some (i : Int))) = true)) :=
  ⟨⟨by decide, by decide⟩,
   c7_theorem (fun _ _ => 0) ['m'] [['1', '5', 'B']] 2 (by decide) (by decide)⟩

/-! ### Claim C10 -/

theorem splitOnDash_length_one_iff (s : List Char) :
    (splitOnDash s).length = 1 ↔ '-' ∉ s := by
  induction s with
  | nil => simp [splitOnDash]
  | cons c rest ih =>
      by_cases hc : c = '-'
      · subst hc
        rw [splitOnDash, if_pos rfl]
        simp only [List.length_cons]
        constructor
        · intro h
          have hne := splitOnDash_ne_nil rest
          have hz : splitOnDash rest = [] := by
            rw [← List.length_eq_zero]
            omega
          exact absurd hz hne
        · intro h
          exact absurd (List.mem_cons_self '-' rest) h
      · rw [splitOnDash, if_neg hc]
        rcases hsp : splitOnDash rest with _ | ⟨t, ts⟩
        · exact absurd hsp (splitOnDash_ne_nil rest)
        · rw [hsp] at ih
          rw [show ((c :: t) :: ts).length = (t :: ts).length by simp, ih,
            List.mem_cons]
          constructor
          · intro h
            rintro (rfl | hm)
            · exact hc rfl
            · exact h hm
          · intro h hm
            exact h (Or.inr hm)

/-- Claim C10 is false as stated: "b" contains no "-" delimiter, yet
GetMessageID("a", "b") returns -1 without panicking, because the prefix
check on parts[0] fails before parts[1] is touched. -/
theorem c10_counterexample :
    GetMessageID ['a'] ['b'] = some (-1)
    ∧ '-' ∉ (['b'] : List Char) := by
  refine ⟨by decide, by decide⟩

/-- Claim C10 (amended): GetMessageID panics (models to `none`) exactly
when the payload contains no "-" **and** equals the prefix; when the
payload contains no "-" but differs from the prefix, it returns -1
without panicking. -/
theorem c10_theorem (p s : List Char) :
    (GetMessageID p s = none ↔ ('-' ∉ s ∧ p = s))
    ∧ ('-' ∉ s → p ≠ s → GetMessageID p s = some (-1)) := by
  constructor
  · constructor
    · intro h
      rcases hsp : splitOnDash s with _ | ⟨p0, parts2⟩
      · exact absurd hsp (splitOnDash_ne_nil s)
      · simp only [GetMessageID, hsp] at h
        by_cases hp : p ≠ (p0 :: parts2).headD []
        · rw [if_pos hp] at h
          exact absurd h (by simp)
        · rw [if_neg hp] at h
          push_neg at hp
          cases parts2 with
          | cons p1 rest =>
              have h2 : (match atoi p1 with
                  | none => some (-2)
                  | some index => some index) = (none : Option Int) := h
              cases hat : atoi p1 with
              | none =>
                  rw [hat] at h2
                  exact absurd h2 (by simp)
              | some idx =>
                  rw [hat] at h2
                  exact absurd h2 (by simp)
          | nil =>
              have h1 : (splitOnDash s).length = 1 := by
                rw [hsp]
                rfl
              have hnd := (splitOnDash_length_one_iff s).mp h1
              have heq := splitOnDash_no_dash s hnd
              rw [hsp] at heq
              injection heq with h2 _
              refine ⟨hnd, ?_⟩
              rw [hp]
              exact h2
    · rintro ⟨hnd, rfl⟩
      simp only [GetMessageID, splitOnDash_no_dash _ hnd]
      rw [if_neg (by simp)]
  · intro hnd hne
    simp only [GetMessageID, splitOnDash_no_dash _ hnd]
    rw [if_pos (by simpa using hne)]

/-- Witness for `c10_theorem` at prefix "a" and payload "a-3". -/
theorem c10_witness :
    (GetMessageID ['a'] ['a', '-', '3'] = none
      ↔ ('-' ∉ (['a', '-', '3'] : List Char) ∧ ['a'] = ['a', '-', '3']))
    ∧ ('-' ∉ (['a', '-', '3'] : List Char) → ['a'] ≠ ['a', '-', '3'] →
        GetMessageID ['a'] ['a', '-', '3'] = some (-1)) :=
  c10_theorem ['a'] ['a', '-', '3']


/-! ### Claim C8: the alertID of a component's IncidentRecord

The registry entry for one fixed component of the `incidents` map
(src/cfg/incident.go) evolves under three program actions:

* `create r now` — the store `incidents[msg.Entity] = incident` performed
  by `CreateOpsGenieAlert` (line 341-348) after a successful POST: a fresh
  record with the new requestID, `alertID = ""` and `createdAt = now`.
  Each such store also spawns one `getOpsGenieAlertIDRetry` resolver task.
* `resolve a` — the locked read-modify-write performed by the spawned
  resolver on its first successful lookup (lines 363-371): if an entry is
  present its `alertID` is set to `a`; the task then returns, so each
  spawned resolver performs at most one such write.
* `removeRec` — the `delete(incidents, component)` of `RemoveIncident`
  (line 265).

A trace is valid when every `resolve` is backed by a previously spawned
(and not yet used) resolver: in every prefix, resolves ≤ creates. -/

inductive IncidentEvent where
  | create (requestID : String) (now : Int)
  | resolve (alertID : String)
  | removeRec
deriving Repr, DecidableEq

/-- incidentRecord (src/cfg/incident.go:41). -/
structure incidentRecord where
  requestID : String
  alertID : String
  createdAt : Int
deriving Repr, DecidableEq

/-- Effect of one event on the component's registry entry. -/
def applyEvent (st : Option incidentRecord) :
    IncidentEvent → Option incidentRecord
  | .create r now => some { requestID := r, alertID := "", createdAt := now }
  | .resolve a =>
      match st with
      | some rec => some { rec with alertID := a }
      | none => none
  | .removeRec => none

/-- Run a trace from an entry state. -/
def runEvents (st : Option incidentRecord) (es : List IncidentEvent) :
    Option incidentRecord :=
  es.foldl applyEvent st

/-- Validity relative to `avail` pending resolver writes: a `resolve`
consumes one, a `create` adds one. -/
def validFrom (avail : Nat) : List IncidentEvent → Bool
  | [] => true
  | .create _ _ :: es => validFrom (avail + 1) es
  | .resolve _ :: es => decide (0 < avail) && validFrom (avail - 1) es
  | .removeRec :: es => validFrom avail es

/-- Number of `create` events (alert creations for the component). -/
def countCreates (es : List IncidentEvent) : Nat :=
  es.countP (fun e => match e with
    | .create _ _ => true
    | _ => false)

/-- The number of times the stored record's alertID field changes value
while a record stays present (deletion and insertion are not field
transitions). -/
def alertIDChanges (st : Option incidentRecord) :
    List IncidentEvent → Nat
  | [] => 0
  | e :: es =>
      (match st, applyEvent st e with
        | some r1, some r2 => if r1.alertID ≠ r2.alertID then 1 else 0
        | _, _ => 0)
      + alertIDChanges (applyEvent st e) es

/-- True when the stored alertID never changes away from a non-empty
value while a record stays present. -/
def alertIDStable (st : Option incidentRecord) :
    List IncidentEvent → Bool
  | [] => true
  | e :: es =>
      (match st, applyEvent st e with
        | some r1, some r2 =>
            !(decide (r1.alertID ≠ r2.alertID ∧ r1.alertID ≠ ""))
        | _, _ => true)
      && alertIDStable (applyEvent st e) es

theorem c8_aux (es : List IncidentEvent) (st : Option incidentRecord)
    (avail : Nat) (hv : validFrom avail es = true)
    (hb : avail + countCreates es ≤ 1)
    (h1 : avail = 1 → ∀ r, st = some r → r.alertID = "")
    (h2 : countCreates es = 1 → st = none) :
    alertIDChanges st es ≤ avail + countCreates es
    ∧ alertIDStable st es = true := by
  induction es generalizing st avail with
  | nil => simp [alertIDChanges, alertIDStable]
  | cons e es ih =>
      cases e with
      | create r now =>
          have hc : countCreates (IncidentEvent.create r now :: es)
              = countCreates es + 1 := by
            simp [countCreates, List.countP_cons]
          rw [hc] at hb ⊢
          have hav : avail = 0 := by omega
          have hces : countCreates es = 0 := by omega
          subst hav
          have hst : st = none := h2 (by rw [hc]; omega)
          subst hst
          rw [validFrom] at hv
          obtain ⟨ihc, ihs⟩ := ih
            (some { requestID := r, alertID := "", createdAt := now }) 1 hv
            (by omega)
            (fun _ r2 hr => by rw [← Option.some.inj hr])
            (fun hh => absurd hh (by omega))
          constructor
          · simp only [alertIDChanges, applyEvent]
            omega
          · simp only [alertIDStable, applyEvent]
            exact ihs
      | resolve a =>
          have hc : countCreates (IncidentEvent.resolve a :: es)
              = countCreates es := by
            simp [countCreates, List.countP_cons]
          rw [hc] at hb ⊢
          rw [validFrom, Bool.and_eq_true, decide_eq_true_eq] at hv
          obtain ⟨hpos, hv'⟩ := hv
          have hav : avail = 1 := by omega
          subst hav
          have hces : countCreates es = 0 := by omega
          cases st with
          | none =>
              obtain ⟨ihc, ihs⟩ := ih none 0 hv' (by omega)
                (fun hh => absurd hh (by omega)) (fun _ => rfl)
              constructor
              · simp only [alertIDChanges, applyEvent]
                omega
              · simp only [alertIDStable, applyEvent]
                exact ihs
          | some rec =>
              have hempty : rec.alertID = "" := h1 rfl rec rfl
              obtain ⟨ihc, ihs⟩ := ih
                (some { rec with alertID := a }) 0 hv' (by omega)
                (fun hh => absurd hh (by omega))
                (fun hh => absurd hh (by omega))
              constructor
              · simp only [alertIDChanges, applyEvent]
                split <;> omega
              · simp only [alertIDStable, applyEvent, Bool.and_eq_true]
                refine ⟨?_, ihs⟩
                simp [hempty]
      | removeRec =>
          have hc : countCreates (IncidentEvent.removeRec :: es)
              = countCreates es := by
            simp [countCreates, List.countP_cons]
          rw [hc] at hb ⊢
          rw [validFrom] at hv
          obtain ⟨ihc, ihs⟩ := ih none avail hv hb
            (fun _ r2 hr => by cases hr) (fun _ => rfl)
          constructor
          · simp only [alertIDChanges, applyEvent]
            cases st <;> omega
          · simp only [alertIDStable, applyEvent]
            cases st <;> exact ihs

/-- Claim C8 is false as stated: the valid trace
create(r1); resolve("A"); create(r2) — reachable when a component
escalates a second time before any clear — stores the non-empty alertID
"A" and then rewrites the component's stored record with a fresh one whose
alertID is "" (CreateOpsGenieAlert overwrites `incidents[msg.Entity]`).
The stored alertID field thus transitions more than once and a non-empty
value is overwritten. -/
theorem c8_counterexample :
    validFrom 0 [IncidentEvent.create "r1" 0, IncidentEvent.resolve "A",
        IncidentEvent.create "r2" 5] = true
    ∧ (runEvents none [IncidentEvent.create "r1" 0,
        IncidentEvent.resolve "A"]).map incidentRecord.alertID = some "A"
    ∧ (runEvents none [IncidentEvent.create "r1" 0, IncidentEvent.resolve "A",
        IncidentEvent.create "r2" 5]).map incidentRecord.alertID = some ""
    ∧ alertIDStable none [IncidentEvent.create "r1" 0,
        IncidentEvent.resolve "A", IncidentEvent.create "r2" 5] = false := by
  refine ⟨by decide, by decide, by decide, by decide⟩

/-- Claim C8 (amended): in every valid execution in which at most one
incident is created for the component (between clears there is at most one
CreateOpsGenieAlert), the stored record's alertID field changes value at
most once, and never changes away from a non-empty value; each resolver
task writes at most once by construction (`validFrom`). -/
theorem c8_theorem (es : List IncidentEvent) (hv : validFrom 0 es = true)
    (hc : countCreates es ≤ 1) :
    alertIDChanges none es ≤ 1 ∧ alertIDStable none es = true := by
  obtain ⟨hch, hst⟩ := c8_aux es none 0 hv (by omega)
    (fun hh => absurd hh (by omega)) (fun _ => rfl)
  exact ⟨by omega, hst⟩

/-- Witness for `c8_theorem`: one creation, one resolver write, one
removal. -/
theorem c8_witness :
    (validFrom 0 [IncidentEvent.create "r" 0, IncidentEvent.resolve "A",
        IncidentEvent.removeRec] = true
      ∧ countCreates [IncidentEvent.create "r" 0, IncidentEvent.resolve "A",
          IncidentEvent.removeRec] ≤ 1)
    ∧ (alertIDChanges none [IncidentEvent.create "r" 0,
          IncidentEvent.resolve "A", IncidentEvent.removeRec] ≤ 1
      ∧ alertIDStable none [IncidentEvent.create "r" 0,
          IncidentEvent.resolve "A", IncidentEvent.removeRec] = true) :=
  ⟨⟨by decide, by decide⟩,
   c8_theorem [IncidentEvent.create "r" 0, IncidentEvent.resolve "A",
     IncidentEvent.removeRec] (by decide) (by decide)⟩

end PulsarHeartbeat
